import Mathlib

/-!
Verification development for the libvirt 1.2.7 storage driver
(`src/storage/storage_driver.c`) and its backing-chain resolver.

The C code is shallowly embedded: each driver entry point becomes a pure
Lean function from the pre-state (pool object, driver state) and the
backend's reported outcomes to the post-state together with the returned
error, mirroring the source's guard order and mutation order.  Unsigned
64-bit counters are modelled as `Nat` with explicit reduction modulo
`2 ^ 64` exactly where the C performs wrapping arithmetic.  External
collaborators (XML parsing, ACL checks, and the pluggable backend) are out
of scope per the specification; a backend call is represented by the
outcome it reports, carried in a `StorageBackend` record.
-/

namespace StorageDriver

/-- `2 ^ 64`, the modulus of the C `unsigned long long` counters. -/
def u64Mod : Nat := 2 ^ 64

/-- Unsigned 64-bit addition: `a + b` with C wrap-around semantics. -/
def u64add (a b : Nat) : Nat := (a + b) % u64Mod

/-- Unsigned 64-bit subtraction: `a - b` with C wrap-around semantics
(both operands are first reduced, as every stored counter is `< 2 ^ 64`). -/
def u64sub (a b : Nat) : Nat := (a % u64Mod + u64Mod - b % u64Mod) % u64Mod

/-- Error kinds reported through `virReportError` in the driver, following
section 7 of the specification. -/
inductive VirErr where
  | noStoragePool       -- VIR_ERR_NO_STORAGE_POOL
  | noStorageVol        -- VIR_ERR_NO_STORAGE_VOL
  | storageVolExist     -- VIR_ERR_STORAGE_VOL_EXIST
  | alreadyExists       -- duplicate pool name/UUID/source
  | operationInvalid    -- VIR_ERR_OPERATION_INVALID (InvalidState)
  | operationFailed     -- VIR_ERR_OPERATION_FAILED
  | invalidArg          -- VIR_ERR_INVALID_ARG
  | noSupport           -- VIR_ERR_NO_SUPPORT (Unsupported)
  | internalError       -- VIR_ERR_INTERNAL_ERROR (InternalInconsistency)
  | systemError         -- virReportSystemError (IOFailure)
  | backendFail         -- a backend function returned < 0
  deriving Repr, DecidableEq

/-- `virStorageVolTarget`: the fields of `vol->target` the driver reads. -/
structure VolTarget where
  path : String
  capacity : Nat
  allocation : Nat
  deriving Repr, DecidableEq

/-- `virStorageVolDef`: one volume record owned by a pool. -/
structure VolDef where
  name : String
  key : String
  in_use : Nat
  building : Bool
  target : VolTarget
  deriving Repr, DecidableEq

/-- `virStoragePoolDef`: the definition part of a pool
(`name`/`uuid`/`source` identity plus the byte accounting). -/
structure PoolDef where
  name : String
  uuid : String
  source : String
  capacity : Nat
  allocation : Nat
  available : Nat
  deriving Repr, DecidableEq

/-- `virStoragePoolObj`: one live pool object of the driver's store. -/
structure PoolObj where
  pdef : PoolDef
  active : Bool
  asyncjobs : Nat
  configFile : Option String
  newDef : Option PoolDef
  volumes : List VolDef
  deriving Repr, DecidableEq

/-- Outcomes reported by the backend's capability slots for one call.
`...Present` is whether the optional slot exists in the backend table;
`...Ok` is the result the slot reports when invoked. -/
structure StorageBackend where
  backendPresent : Bool := true
  createVolPresent : Bool := true
  createVolOk : Bool := true
  buildVolPresent : Bool := true
  buildVolOk : Bool := true
  buildVolFromPresent : Bool := true
  buildVolFromOk : Bool := true
  deleteVolPresent : Bool := true
  deleteVolOk : Bool := true
  resizeVolPresent : Bool := true
  resizeVolOk : Bool := true
  wipeVolPresent : Bool := true
  wipeVolOk : Bool := true
  uploadVolPresent : Bool := true
  uploadVolOk : Bool := true
  refreshVolPresent : Bool := false
  refreshVolOk : Bool := true
  startPoolPresent : Bool := false
  startPoolOk : Bool := true
  stopPoolPresent : Bool := false
  stopPoolOk : Bool := true
  refreshPoolOk : Bool := true
  refreshVolumesList : List VolDef := []
  refreshCapacity : Nat := 0
  refreshAllocation : Nat := 0
  refreshAvailable : Nat := 0
  deriving Repr, DecidableEq

/-- `virStorageVolDefFindByName`: first volume of the pool with the name. -/
def virStorageVolDefFindByName (pool : PoolObj) (n : String) : Option VolDef :=
  pool.volumes.find? (fun v => decide (v.name = n))

/-- Remove the first list entry structurally equal to `vol` (the embedding of
removing the entry that is pointer-equal to `vol`, as the loop of
`storageVolDeleteInternal` does with `VIR_DELETE_ELEMENT`). -/
def removeFirstVol : List VolDef → VolDef → List VolDef
  | [], _ => []
  | v :: rest, vol => if v = vol then rest else v :: removeFirstVol rest vol

/-- Replace the first list entry structurally equal to `vol` by `vol2`
(the embedding of mutating the volume object in place). -/
def replaceFirstVol : List VolDef → VolDef → VolDef → List VolDef
  | [], _, _ => []
  | v :: rest, vol, vol2 =>
    if v = vol then vol2 :: rest else v :: replaceFirstVol rest vol vol2

/-- `storageVolDeleteInternal` (storage_driver.c:1477-1520): invoke the
backend's `deleteVol`, then, when `updateMeta` is set, subtract the volume's
allocation from the pool's allocation and add it to `available`, and finally
unlink the volume from the pool's volume list. -/
def storageVolDeleteInternal (b : StorageBackend) (pool : PoolObj)
    (vol : VolDef) (updateMeta : Bool) : Except VirErr Unit × PoolObj :=
  if ¬b.deleteVolPresent then (.error .noSupport, pool)
  else if ¬b.deleteVolOk then (.error .backendFail, pool)
  else
    let pool1 :=
      if updateMeta then
        { pool with pdef := { pool.pdef with
            allocation := u64sub pool.pdef.allocation vol.target.allocation,
            available := u64add pool.pdef.available vol.target.allocation } }
      else pool
    (.ok (), { pool1 with volumes := removeFirstVol pool1.volumes vol })

/-- `storageVolDelete` (storage_driver.c:1573-1610): resolve the volume
(pool must be active, volume must exist), guard on `in_use` and `building`,
then delete through `storageVolDeleteInternal` with metadata update. -/
def storageVolDelete (b : StorageBackend) (pool : PoolObj) (volName : String) :
    Except VirErr Unit × PoolObj :=
  if ¬pool.active then (.error .operationInvalid, pool)
  else
    match virStorageVolDefFindByName pool volName with
    | none => (.error .noStorageVol, pool)
    | some vol =>
      if vol.in_use ≠ 0 then (.error .operationInvalid, pool)
      else if vol.building then (.error .operationInvalid, pool)
      else storageVolDeleteInternal b pool vol true

/-- The three `virCheckFlags`-accepted flags of `storageVolResize`. -/
structure ResizeFlags where
  allocate : Bool
  delta : Bool
  shrink : Bool
  deriving Repr, DecidableEq

/-- `storageVolResize` (storage_driver.c:2008-2095).  Guard order follows the
source: `in_use`, `building`, absolute-capacity computation, the three
argument checks, backend support, backend call; on success the volume's
capacity (and, with the ALLOCATE flag, its allocation) becomes
`abs_capacity`, and the pool delta is computed from
`abs_capacity - vol->target.capacity` only after `vol->target.capacity` has
already been overwritten, exactly as the source does. -/
def storageVolResize (b : StorageBackend) (pool : PoolObj) (volName : String)
    (capacity : Nat) (fl : ResizeFlags) : Except VirErr Unit × PoolObj :=
  if ¬pool.active then (.error .operationInvalid, pool)
  else
    match virStorageVolDefFindByName pool volName with
    | none => (.error .noStorageVol, pool)
    | some vol =>
      if vol.in_use ≠ 0 then (.error .operationInvalid, pool)
      else if vol.building then (.error .operationInvalid, pool)
      else
        let abs_capacity :=
          if fl.delta then u64add vol.target.capacity capacity else capacity
        if abs_capacity < vol.target.allocation then (.error .invalidArg, pool)
        else if abs_capacity < vol.target.capacity ∧ ¬fl.shrink then
          (.error .invalidArg, pool)
        else if u64add vol.target.capacity pool.pdef.available < abs_capacity then
          (.error .operationFailed, pool)
        else if ¬b.resizeVolPresent then (.error .noSupport, pool)
        else if ¬b.resizeVolOk then (.error .backendFail, pool)
        else
          let vol2 := { vol with target := { vol.target with capacity := abs_capacity } }
          let vol3 :=
            if fl.allocate then
              { vol2 with target := { vol2.target with allocation := abs_capacity } }
            else vol2
          let dlt := u64sub abs_capacity vol3.target.capacity
          (.ok (), { pool with
            volumes := replaceFirstVol pool.volumes vol vol3,
            pdef := { pool.pdef with
              allocation := u64add pool.pdef.allocation dlt,
              available := u64sub pool.pdef.available dlt } })

/-- `storageVolUpload` (storage_driver.c:1959-2006): guards on `in_use` and
`building`, then requires and invokes the backend's `uploadVol`; pool
metadata is never touched. -/
def storageVolUpload (b : StorageBackend) (pool : PoolObj) (volName : String) :
    Except VirErr Unit × PoolObj :=
  if ¬pool.active then (.error .operationInvalid, pool)
  else
    match virStorageVolDefFindByName pool volName with
    | none => (.error .noStorageVol, pool)
    | some vol =>
      if vol.in_use ≠ 0 then (.error .operationInvalid, pool)
      else if vol.building then (.error .operationInvalid, pool)
      else if ¬b.uploadVolPresent then (.error .noSupport, pool)
      else if ¬b.uploadVolOk then (.error .backendFail, pool)
      else (.ok (), pool)

/-- `VIR_STORAGE_VOL_WIPE_ALG_LAST` of libvirt 1.2.7. -/
def VIR_STORAGE_VOL_WIPE_ALG_LAST : Nat := 9

/-- `storageVolWipePattern` (storage_driver.c:2098-2150): algorithm range
check first, then the `in_use`/`building` guards and the backend call. -/
def storageVolWipePattern (b : StorageBackend) (pool : PoolObj)
    (volName : String) (algorithm : Nat) : Except VirErr Unit × PoolObj :=
  if VIR_STORAGE_VOL_WIPE_ALG_LAST ≤ algorithm then (.error .invalidArg, pool)
  else if ¬pool.active then (.error .operationInvalid, pool)
  else
    match virStorageVolDefFindByName pool volName with
    | none => (.error .noStorageVol, pool)
    | some vol =>
      if vol.in_use ≠ 0 then (.error .operationInvalid, pool)
      else if vol.building then (.error .operationInvalid, pool)
      else if ¬b.wipeVolPresent then (.error .noSupport, pool)
      else if ¬b.wipeVolOk then (.error .backendFail, pool)
      else (.ok (), pool)

/-- `storageVolWipe` (storage_driver.c:2152-2157): wipe with the ZERO
algorithm. -/
def storageVolWipe (b : StorageBackend) (pool : PoolObj) (volName : String) :
    Except VirErr Unit × PoolObj :=
  storageVolWipePattern b pool volName 0

/-- `storageVolCreateXML` (storage_driver.c:1613-1733).  After the guards,
the parsed definition is registered in the pool's volume list; when the
backend has a `buildVol` slot the pool's `asyncjobs` counter and the
volume's `building` flag are raised around the build call and lowered
afterwards; a failed build rolls the volume back through
`storageVolDeleteInternal` with `updateMeta = false` (ignoring its result);
on success the pool's accounting is increased by the allocation captured in
the pre-build shallow copy `buildvoldef`. -/
def storageVolCreateXML (b : StorageBackend) (pool : PoolObj) (voldef : VolDef) :
    Except VirErr VolDef × PoolObj :=
  if ¬pool.active then (.error .operationInvalid, pool)
  else if (virStorageVolDefFindByName pool voldef.name).isSome then
    (.error .storageVolExist, pool)
  else if ¬b.createVolPresent then (.error .noSupport, pool)
  else if ¬b.createVolOk then (.error .backendFail, pool)
  else
    let pool1 := { pool with volumes := pool.volumes ++ [voldef] }
    let buildvoldef := voldef
    if b.buildVolPresent then
      let pool2 := { pool1 with
        asyncjobs := pool1.asyncjobs + 1,
        volumes := replaceFirstVol pool1.volumes voldef
          { voldef with building := true } }
      -- the backend build runs here with the pool lock dropped
      let pool3 := { pool2 with
        asyncjobs := pool2.asyncjobs - 1,
        volumes := replaceFirstVol pool2.volumes { voldef with building := true }
          { voldef with building := false } }
      if ¬b.buildVolOk then
        (.error .backendFail,
          (storageVolDeleteInternal b pool3 { voldef with building := false } false).2)
      else
        (.ok voldef, { pool3 with pdef := { pool3.pdef with
          allocation := u64add pool3.pdef.allocation buildvoldef.target.allocation,
          available := u64sub pool3.pdef.available buildvoldef.target.allocation } })
    else
      (.ok voldef, { pool1 with pdef := { pool1.pdef with
        allocation := u64add pool1.pdef.allocation buildvoldef.target.allocation,
        available := u64sub pool1.pdef.available buildvoldef.target.allocation } })

/-- `storageVolCreateXMLFrom` (storage_driver.c:1735-1913), same-pool clone
path (`origpool = NULL`).  The requested capacity is silently raised to the
source volume's capacity, and the requested allocation likewise
(storage_driver.c:1813-1820); the new volume is registered, the
`asyncjobs`/`building`/`in_use` counters are raised around the
`buildVolFrom` call and lowered afterwards, a failed build is rolled back
through the non-metadata-updating delete, and a successful build adds the
allocation captured after the build to the pool's accounting. -/
def storageVolCreateXMLFrom (b : StorageBackend) (pool : PoolObj)
    (origVolName : String) (newvol : VolDef) : Except VirErr VolDef × PoolObj :=
  if ¬pool.active then (.error .operationInvalid, pool)
  else
    match virStorageVolDefFindByName pool origVolName with
    | none => (.error .noStorageVol, pool)
    | some origvol =>
      if (virStorageVolDefFindByName pool newvol.name).isSome then
        (.error .internalError, pool)
      else
        let newvol1 :=
          if newvol.target.capacity < origvol.target.capacity then
            { newvol with target :=
              { newvol.target with capacity := origvol.target.capacity } }
          else newvol
        let newvol2 :=
          if newvol1.target.allocation < origvol.target.capacity then
            { newvol1 with target :=
              { newvol1.target with allocation := origvol.target.capacity } }
          else newvol1
        if ¬b.buildVolFromPresent then (.error .noSupport, pool)
        else if origvol.building then (.error .operationInvalid, pool)
        else if b.refreshVolPresent ∧ ¬b.refreshVolOk then (.error .backendFail, pool)
        else if ¬b.createVolOk then (.error .backendFail, pool)
        else
          let pool1 := { pool with volumes := pool.volumes ++ [newvol2] }
          let pool2 := { pool1 with
            asyncjobs := pool1.asyncjobs + 1,
            volumes := replaceFirstVol
              (replaceFirstVol pool1.volumes newvol2 { newvol2 with building := true })
              origvol { origvol with in_use := origvol.in_use + 1 } }
          -- the backend buildVolFrom runs here with the pool lock dropped
          let pool3 := { pool2 with
            asyncjobs := pool2.asyncjobs - 1,
            volumes := replaceFirstVol
              (replaceFirstVol pool2.volumes { origvol with in_use := origvol.in_use + 1 }
                { origvol with in_use := origvol.in_use + 1 - 1 })
              { newvol2 with building := true } { newvol2 with building := false } }
          let allocation := newvol2.target.allocation
          if ¬b.buildVolFromOk then
            (.error .backendFail,
              (storageVolDeleteInternal b pool3 { newvol2 with building := false } false).2)
          else
            (.ok newvol2, { pool3 with pdef := { pool3.pdef with
              allocation := u64add pool3.pdef.allocation allocation,
              available := u64sub pool3.pdef.available allocation } })

/-! ### The pool object store and the pool lifecycle operations -/

/-- The mutable part of `virStorageDriverState` the lifecycle operations
touch: the list of live pool objects. -/
structure DriverState where
  pools : List PoolObj
  deriving Repr, DecidableEq

/-- `virStoragePoolObjFindByUUID`: first pool of the store with the UUID. -/
def findPoolByUuid (s : DriverState) (u : String) : Option PoolObj :=
  s.pools.find? (fun p => decide (p.pdef.uuid = u))

/-- `virStoragePoolObjFindByName`: first pool of the store with the name. -/
def findPoolByName (s : DriverState) (n : String) : Option PoolObj :=
  s.pools.find? (fun p => decide (p.pdef.name = n))

/-- `storagePoolLookupByName` (storage_driver.c:296-323): resolve a pool by
name, reporting NotFound when the store has none. -/
def storagePoolLookupByName (s : DriverState) (n : String) : Except VirErr PoolObj :=
  match findPoolByName s n with
  | none => .error .noStoragePool
  | some p => .ok p

/-- Remove the first store entry structurally equal to `p` (the embedding of
`virStoragePoolObjRemove`, which unlinks the pool object itself). -/
def erasePoolFirst : List PoolObj → PoolObj → List PoolObj
  | [], _ => []
  | q :: rest, p => if q = p then rest else q :: erasePoolFirst rest p

/-- Replace the first store entry structurally equal to `p` by `p2` (the
embedding of mutating the looked-up pool object in place). -/
def replaceFirstPool : List PoolObj → PoolObj → PoolObj → List PoolObj
  | [], _, _ => []
  | q :: rest, p, p2 =>
    if q = p then p2 :: rest else q :: replaceFirstPool rest p p2

/-- Modelled from the spec: `virStoragePoolObjIsDuplicate` lives in
`storage_conf.c`, which is not part of this repository snapshot.  Per
section 4.2 of the specification, "name and UUID are unique across the live
set at all times; insert must atomically check-and-reject duplicates": the
check reports a clash when some existing pool has the same name or the same
UUID. -/
def virStoragePoolObjIsDuplicate (pools : List PoolObj) (d : PoolDef) : Bool :=
  pools.any (fun p => decide (p.pdef.name = d.name) || decide (p.pdef.uuid = d.uuid))

/-- Modelled from the spec: `virStoragePoolSourceFindDuplicate` lives in
`storage_conf.c`, which is not part of this repository snapshot.  Per
section 4.2 of the specification, "two pools must not claim the same
physical SCSI host/adapter or the same directory". -/
def virStoragePoolSourceFindDuplicate (pools : List PoolObj) (d : PoolDef) : Bool :=
  pools.any (fun p => decide (p.pdef.source = d.source))

/-- Modelled from the spec: `virStoragePoolObjAssignDef` lives in
`storage_conf.c`, which is not part of this repository snapshot.  Per
section 4.2 of the specification, `insert(def) -> Pool` publishes a fresh
(inactive, no async jobs, transient until saved) pool object into the
store; the callers run the duplicate checks first. -/
def virStoragePoolObjAssignDef (pools : List PoolObj) (d : PoolDef) :
    List PoolObj × PoolObj :=
  let p : PoolObj :=
    { pdef := d, active := false, asyncjobs := 0,
      configFile := none, newDef := none, volumes := [] }
  (pools ++ [p], p)

/-- `storagePoolCreateXML` (storage_driver.c:594-653): reject duplicates,
insert the new pool, run the optional `startPool` and the mandatory
`refreshPool`; either backend failure removes the pool again, success marks
it active with the backend-reported volumes and accounting. -/
def storagePoolCreateXML (b : StorageBackend) (s : DriverState) (d : PoolDef) :
    Except VirErr Unit × DriverState :=
  if virStoragePoolObjIsDuplicate s.pools d then (.error .alreadyExists, s)
  else if virStoragePoolSourceFindDuplicate s.pools d then (.error .alreadyExists, s)
  else if ¬b.backendPresent then (.error .internalError, s)
  else
    let pools1 := (virStoragePoolObjAssignDef s.pools d).1
    let p := (virStoragePoolObjAssignDef s.pools d).2
    if b.startPoolPresent ∧ ¬b.startPoolOk then
      (.error .backendFail, ⟨erasePoolFirst pools1 p⟩)
    else if ¬b.refreshPoolOk then
      (.error .backendFail, ⟨erasePoolFirst pools1 p⟩)
    else
      (.ok (), ⟨replaceFirstPool pools1 p
        { p with active := true,
                 volumes := b.refreshVolumesList,
                 pdef := { p.pdef with
                   capacity := b.refreshCapacity,
                   allocation := b.refreshAllocation,
                   available := b.refreshAvailable } }⟩)

/-- `storagePoolDefineXML` (storage_driver.c:655-703): reject duplicates,
insert the new pool inactive, persist its definition (removing the pool
again when saving fails).  The saved config path makes the pool
persistent. -/
def storagePoolDefineXML (b : StorageBackend) (s : DriverState) (d : PoolDef)
    (saveOk : Bool) : Except VirErr Unit × DriverState :=
  if virStoragePoolObjIsDuplicate s.pools d then (.error .alreadyExists, s)
  else if virStoragePoolSourceFindDuplicate s.pools d then (.error .alreadyExists, s)
  else if ¬b.backendPresent then (.error .internalError, s)
  else
    let pools1 := (virStoragePoolObjAssignDef s.pools d).1
    let p := (virStoragePoolObjAssignDef s.pools d).2
    if ¬saveOk then (.error .systemError, ⟨erasePoolFirst pools1 p⟩)
    else (.ok (), ⟨replaceFirstPool pools1 p
      { p with configFile := some (d.name ++ ".xml") }⟩)

/-- `storagePoolDestroy` (storage_driver.c:842-903): requires an active pool
with no async jobs; stops it, clears its volumes, marks it inactive, and
removes it when transient, otherwise promotes a staged new definition. -/
def storagePoolDestroy (b : StorageBackend) (s : DriverState) (u : String) :
    Except VirErr Unit × DriverState :=
  match findPoolByUuid s u with
  | none => (.error .noStoragePool, s)
  | some pool =>
    if ¬b.backendPresent then (.error .internalError, s)
    else if ¬pool.active then (.error .operationInvalid, s)
    else if pool.asyncjobs ≠ 0 then (.error .internalError, s)
    else if b.stopPoolPresent ∧ ¬b.stopPoolOk then (.error .backendFail, s)
    else
      let pool1 := { pool with volumes := [], active := false }
      if pool1.configFile = none then (.ok (), ⟨erasePoolFirst s.pools pool⟩)
      else
        match pool1.newDef with
        | some nd =>
          (.ok (), ⟨replaceFirstPool s.pools pool
            { pool1 with pdef := nd, newDef := none }⟩)
        | none => (.ok (), ⟨replaceFirstPool s.pools pool pool1⟩)

/-- `storagePoolUndefine` (storage_driver.c:705-761): requires an inactive
pool with no async jobs; deletes the persisted definition and removes the
pool from the store. -/
def storagePoolUndefine (s : DriverState) (u : String) (deleteDefOk : Bool) :
    Except VirErr Unit × DriverState :=
  match findPoolByUuid s u with
  | none => (.error .noStoragePool, s)
  | some pool =>
    if pool.active then (.error .operationInvalid, s)
    else if pool.asyncjobs ≠ 0 then (.error .internalError, s)
    else if ¬deleteDefOk then (.error .systemError, s)
    else (.ok (), ⟨erasePoolFirst s.pools pool⟩)

/-- `storagePoolRefresh` (storage_driver.c:952-1012): requires an active
pool with no async jobs; clears the volume list and re-runs the backend's
`refreshPool`.  On failure the pool is stopped and deactivated, and a
transient pool (no config file) is removed from the store entirely; on
success the backend-reported volumes and accounting replace the old
state. -/
def storagePoolRefresh (b : StorageBackend) (s : DriverState) (u : String) :
    Except VirErr Unit × DriverState :=
  match findPoolByUuid s u with
  | none => (.error .noStoragePool, s)
  | some pool =>
    if ¬b.backendPresent then (.error .internalError, s)
    else if ¬pool.active then (.error .operationInvalid, s)
    else if pool.asyncjobs ≠ 0 then (.error .internalError, s)
    else
      let pool1 := { pool with volumes := [] }
      if ¬b.refreshPoolOk then
        let pool2 := { pool1 with active := false }
        if pool2.configFile = none then
          (.error .backendFail, ⟨erasePoolFirst s.pools pool⟩)
        else
          (.error .backendFail, ⟨replaceFirstPool s.pools pool pool2⟩)
      else
        (.ok (), ⟨replaceFirstPool s.pools pool
          { pool1 with
            volumes := b.refreshVolumesList,
            pdef := { pool1.pdef with
              capacity := b.refreshCapacity,
              allocation := b.refreshAllocation,
              available := b.refreshAvailable } }⟩)

/-- One pool lifecycle API call, with the backend outcomes it observes. -/
inductive PoolOp where
  | defineXML (b : StorageBackend) (d : PoolDef) (saveOk : Bool)
  | createXML (b : StorageBackend) (d : PoolDef)
  | destroy (b : StorageBackend) (u : String)
  | undefine (u : String) (deleteDefOk : Bool)
  | refresh (b : StorageBackend) (u : String)

/-- Post-state of one pool lifecycle call. -/
def applyPoolOp (s : DriverState) : PoolOp → DriverState
  | .defineXML b d saveOk => (storagePoolDefineXML b s d saveOk).2
  | .createXML b d => (storagePoolCreateXML b s d).2
  | .destroy b u => (storagePoolDestroy b s u).2
  | .undefine u delOk => (storagePoolUndefine s u delOk).2
  | .refresh b u => (storagePoolRefresh b s u).2

/-- Post-state of a sequence of pool lifecycle calls. -/
def runPoolOps (s : DriverState) : List PoolOp → DriverState
  | [] => s
  | op :: ops => runPoolOps (applyPoolOp s op) ops

/-- Pairwise identity distinctness of the live pool set: no two pools share
a name or a UUID. -/
def poolIdsDistinct (s : DriverState) : Prop :=
  s.pools.Pairwise (fun p q => p.pdef.name ≠ q.pdef.name ∧ p.pdef.uuid ≠ q.pdef.uuid)

/-- The store invariant carried by the lifecycle operations: distinct
identities, and no staged new definition (none of the embedded operations
stages one, as redefinition of an existing pool is rejected as a
duplicate). -/
def storeInv (s : DriverState) : Prop :=
  poolIdsDistinct s ∧ ∀ p ∈ s.pools, p.newDef = none

/-! ### The backing chain resolver -/

/-- `virStorageFileFormat` values the resolver distinguishes.
`autoSafe` is `VIR_STORAGE_FILE_AUTO_SAFE` (-2), `auto` is
`VIR_STORAGE_FILE_AUTO` (-1), `fnone` is `VIR_STORAGE_FILE_NONE` (0); the
remaining constructors are the concrete on-disk formats (code > 0). -/
inductive VirFmt where
  | autoSafe
  | auto
  | fnone
  | raw
  | qcow2
  | other (code : Nat)
  deriving Repr, DecidableEq

/-- `src->format <= VIR_STORAGE_FILE_NONE`. -/
def VirFmt.leNone : VirFmt → Bool
  | .autoSafe => true
  | .auto => true
  | .fnone => true
  | _ => false

/-- `virStorageSource`, restricted to the fields the resolver walks: the
path, the effective format, and the owned pointer to the next chain
element. -/
inductive StorageSource : Type where
  | mk : String → VirFmt → Option StorageSource → StorageSource
  deriving Repr

def StorageSource.path : StorageSource → String
  | .mk p _ _ => p

def StorageSource.format : StorageSource → VirFmt
  | .mk _ f _ => f

def StorageSource.backingStore : StorageSource → Option StorageSource
  | .mk _ _ b => b

/-- `src->backingStore = b` on the chain head. -/
def StorageSource.withBacking : StorageSource → StorageSource → StorageSource
  | .mk p f _, b => .mk p f (some b)

/-- `src->format = f` on the chain head. -/
def StorageSource.withFormat : StorageSource → VirFmt → StorageSource
  | .mk p _ b, f => .mk p f b

/-- What the storage-file backend reports for one path: whether the source's
type supports chain traversal at all, the outcomes of
`backendInit`/`storageFileAccess`/`storageFileReadHeader` and of the
metadata parse, the canonical unique identity string, and the extracted
backing reference (raw path plus format hint). -/
structure FileInfo where
  supportsTraversal : Bool
  initOk : Bool
  accessOk : Bool
  uniqueName : String
  readHeaderOk : Bool
  metadataOk : Bool
  backingStoreRaw : Option String
  backingFormat : VirFmt
  deriving Repr, DecidableEq

/-- The collection of storage files visible to one traversal, keyed by
source path. -/
structure World where
  files : List (String × FileInfo)
  deriving Repr, DecidableEq

def World.lookup (w : World) (p : String) : Option FileInfo :=
  match w.files.find? (fun f => decide (f.1 = p)) with
  | some f => some f.2
  | none => none

/-- The backing-format policy of `virStorageFileGetMetadataRecurse`
(storage_driver.c:2737-2742): an `auto` hint with probing disallowed is
forced to raw, an `auto-safe` hint becomes `auto`, any other hint is used
literally. -/
def resolveBackingFormat (backingFormat : VirFmt) (allow_probe : Bool) : VirFmt :=
  if backingFormat = .auto ∧ ¬allow_probe then .raw
  else if backingFormat = .autoSafe then .auto
  else backingFormat

/-- Result of one resolver run.  `hung` is the fuel-exhaustion sentinel: a
run that would recurse deeper than its fuel allows.  The fuel-adequacy
theorem shows the driver's entry point never produces it, which is the
model's rendering of termination of the visited-set-bounded recursion. -/
inductive RecResult where
  | ok (src : StorageSource)
  | err (e : VirErr)
  | hung
  deriving Repr

/-- `virStorageFileGetMetadataRecurse` (storage_driver.c:2676-2762):
a source whose type lacks the traversal operations terminates the walk
successfully; otherwise the file is opened as uid/gid, its existence
checked, its canonical identity looked up in (and then added to) the
per-traversal visited set — a revisit is the self-referential hard
failure — its header read and parsed, and, when a backing reference was
extracted, the next source is built with `resolveBackingFormat` and
recursed upon; a failing recursive call is absorbed: the chain is accepted
truncated, with the head's `backingStore` left unset. -/
def virStorageFileGetMetadataRecurse (w : World) (allow_probe : Bool) :
    Nat → StorageSource → List String → RecResult
  | 0, _, _ => .hung
  | fuel + 1, src, cycle =>
    match w.lookup src.path with
    | none => .err .systemError
    | some fi =>
      if ¬fi.supportsTraversal then .ok src
      else if ¬fi.initOk then .err .systemError
      else if ¬fi.accessOk then .err .systemError
      else if fi.uniqueName ∈ cycle then .err .internalError
      else if ¬fi.readHeaderOk then .err .systemError
      else if ¬fi.metadataOk then .err .systemError
      else
        match fi.backingStoreRaw with
        | none => .ok src
        | some rawPath =>
          let backing : StorageSource :=
            .mk rawPath (resolveBackingFormat fi.backingFormat allow_probe) none
          match virStorageFileGetMetadataRecurse w allow_probe fuel backing
              (fi.uniqueName :: cycle) with
          | .hung => .hung
          | .err _ => .ok src
          | .ok backing2 => .ok (src.withBacking backing2)

/-- Fuel with which the entry point runs the recursion: one frame per file
of the world plus the root frame, enough for any visited-set-bounded
descent. -/
def metadataFuel (w : World) : Nat := w.files.length + 1

/-- `virStorageFileGetMetadata` (storage_driver.c:2782-2805): default a
missing/auto-or-below format from `allow_probe`, then run the recursive
walk with a fresh visited set. -/
def virStorageFileGetMetadata (w : World) (src : StorageSource)
    (allow_probe : Bool) : RecResult :=
  let src1 :=
    if src.format.leNone then
      src.withFormat (if allow_probe then .auto else .raw)
    else src
  virStorageFileGetMetadataRecurse w allow_probe (metadataFuel w) src1 []

/-! ### Concrete fixtures used by the witnesses -/

/-- A backend table where every slot is present and every call succeeds. -/
def okBackend : StorageBackend := {}

/-- An idle 10-MiB-allocation volume inside `samplePool`. -/
def sampleVol : VolDef :=
  { name := "v1", key := "k1", in_use := 0, building := false,
    target := { path := "/data/p1/v1", capacity := 100, allocation := 10 } }

/-- A volume held by one active consumer. -/
def busyVol : VolDef :=
  { name := "v2", key := "k2", in_use := 1, building := false,
    target := { path := "/data/p1/v2", capacity := 100, allocation := 20 } }

/-- The definition record of `samplePool`. -/
def samplePoolDef : PoolDef :=
  { name := "p1", uuid := "uuid-1", source := "/data/p1",
    capacity := 2000, allocation := 500, available := 1000 }

/-- An active transient pool owning `sampleVol` and `busyVol`. -/
def samplePool : PoolObj :=
  { pdef := samplePoolDef,
    active := true, asyncjobs := 0, configFile := none, newDef := none,
    volumes := [sampleVol, busyVol] }

/-- A fresh volume definition not yet present in `samplePool`. -/
def freshVol : VolDef :=
  { name := "v3", key := "", in_use := 0, building := false,
    target := { path := "/data/p1/v3", capacity := 300, allocation := 30 } }

/-- A clone request smaller than its source volume in both capacity and
allocation. -/
def freshClone : VolDef :=
  { name := "v4", key := "", in_use := 0, building := false,
    target := { path := "/data/p1/v4", capacity := 40, allocation := 5 } }

/-- A second pool definition with identity disjoint from `samplePoolDef`. -/
def otherPoolDef : PoolDef :=
  { name := "p2", uuid := "uuid-2", source := "/data/p2",
    capacity := 4000, allocation := 0, available := 4000 }

/-- Number of world identities not yet in the visited set: the bound on the
remaining recursion depth of the backing chain resolver. -/
def unvisitedCount (w : World) (cycle : List String) : Nat :=
  ((w.files.map (fun f => f.2.uniqueName)).toFinset.filter
    (fun i => i ∉ cycle)).card

/-- The storage-file behaviour of a self-referential image: readable and
declaring itself as its own backing file. -/
def cycleFi : FileInfo :=
  { supportsTraversal := true, initOk := true, accessOk := true,
    uniqueName := "idA", readHeaderOk := true, metadataOk := true,
    backingStoreRaw := some "A", backingFormat := .qcow2 }

/-- A world holding only the self-referential image `A`. -/
def cycleWorld : World := { files := [("A", cycleFi)] }

/-- The root source opened on image `A`. -/
def srcA : StorageSource := .mk "A" .qcow2 none

/-- Image `A` of the truncation scenario: fine, backed by `B`. -/
def truncFiA : FileInfo :=
  { supportsTraversal := true, initOk := true, accessOk := true,
    uniqueName := "idA", readHeaderOk := true, metadataOk := true,
    backingStoreRaw := some "B", backingFormat := .raw }

/-- Image `B` of the truncation scenario: its existence check fails; it
would be backed by `C`. -/
def truncFiB : FileInfo :=
  { supportsTraversal := true, initOk := true, accessOk := false,
    uniqueName := "idB", readHeaderOk := true, metadataOk := true,
    backingStoreRaw := some "C", backingFormat := .raw }

/-- Image `C` of the truncation scenario: a fine terminal image. -/
def truncFiC : FileInfo :=
  { supportsTraversal := true, initOk := true, accessOk := true,
    uniqueName := "idC", readHeaderOk := true, metadataOk := true,
    backingStoreRaw := none, backingFormat := .raw }

/-- The 3-link world `A → B → C` with `B` inaccessible. -/
def truncWorld : World :=
  { files := [("A", truncFiA), ("B", truncFiB), ("C", truncFiC)] }

/-- The root source opened on the truncation scenario's image `A`. -/
def truncSrcA : StorageSource := .mk "A" .raw none

/-- Image `A` of the format-policy scenario: backed by `B` with an `auto`
format hint. -/
def fmtFiA : FileInfo :=
  { supportsTraversal := true, initOk := true, accessOk := true,
    uniqueName := "idA", readHeaderOk := true, metadataOk := true,
    backingStoreRaw := some "B", backingFormat := .auto }

/-- Image `B` of the format-policy scenario: a fine terminal image. -/
def fmtFiB : FileInfo :=
  { supportsTraversal := true, initOk := true, accessOk := true,
    uniqueName := "idB", readHeaderOk := true, metadataOk := true,
    backingStoreRaw := none, backingFormat := .fnone }

/-- The 2-link world `A → B` of the format-policy scenario. -/
def fmtWorld : World := { files := [("A", fmtFiA), ("B", fmtFiB)] }

end StorageDriver

namespace StorageDriver

/-! ### Arithmetic and list helper lemmas -/

theorem u64add_eq (a b : Nat) (h : a + b < u64Mod) : u64add a b = a + b := by
  simp [u64add, Nat.mod_eq_of_lt h]

theorem u64sub_eq (a b : Nat) (hb : b ≤ a) (ha : a < u64Mod) :
    u64sub a b = a - b := by
  have hb2 : b < u64Mod := lt_of_le_of_lt hb ha
  unfold u64sub
  rw [Nat.mod_eq_of_lt ha, Nat.mod_eq_of_lt hb2]
  have h1 : a + u64Mod - b = (a - b) + u64Mod := by omega
  rw [h1, Nat.add_mod_right, Nat.mod_eq_of_lt (by omega)]

theorem removeFirstVol_not_mem (vs : List VolDef) (vol : VolDef)
    (hnd : (vs.map VolDef.name).Nodup) : vol ∉ removeFirstVol vs vol := by
  induction vs with
  | nil => simp [removeFirstVol]
  | cons v rest ih =>
    simp only [List.map_cons, List.nodup_cons] at hnd
    by_cases hv : v = vol
    · subst hv
      simp only [removeFirstVol, if_pos rfl]
      intro hmem
      exact hnd.1 (List.mem_map_of_mem VolDef.name hmem)
    · simp only [removeFirstVol, if_neg hv, List.mem_cons, not_or]
      exact ⟨fun h => hv h.symm, ih hnd.2⟩

theorem find_name_none_ne (pool : PoolObj) (n : String)
    (h : virStorageVolDefFindByName pool n = none) :
    ∀ v ∈ pool.volumes, v.name ≠ n := by
  intro v hv
  unfold virStorageVolDefFindByName at h
  have h2 := List.find?_eq_none.mp h v hv
  simpa using h2

theorem replaceFirstVol_append (vs : List VolDef) (x y : VolDef)
    (h : ∀ v ∈ vs, v ≠ x) : replaceFirstVol (vs ++ [x]) x y = vs ++ [y] := by
  induction vs with
  | nil => simp [replaceFirstVol]
  | cons v rest ih =>
    have hv : v ≠ x := h v (by simp)
    simp only [List.cons_append, replaceFirstVol, if_neg hv]
    show v :: replaceFirstVol (rest ++ [x]) x y = v :: (rest ++ [y])
    rw [ih (fun u hu => h u (by simp [hu]))]

theorem removeFirstVol_append (vs : List VolDef) (x : VolDef)
    (h : ∀ v ∈ vs, v ≠ x) : removeFirstVol (vs ++ [x]) x = vs := by
  induction vs with
  | nil => simp [removeFirstVol]
  | cons v rest ih =>
    have hv : v ≠ x := h v (by simp)
    simp only [List.cons_append, removeFirstVol, if_neg hv]
    show v :: removeFirstVol (rest ++ [x]) x = v :: rest
    rw [ih (fun u hu => h u (by simp [hu]))]

theorem erasePoolFirst_sublist (l : List PoolObj) (p : PoolObj) :
    List.Sublist (erasePoolFirst l p) l := by
  induction l with
  | nil => simp [erasePoolFirst]
  | cons q rest ih =>
    by_cases h : q = p
    · simp only [erasePoolFirst, if_pos h]
      exact List.Sublist.cons q (List.Sublist.refl rest)
    · simp only [erasePoolFirst, if_neg h]
      exact List.Sublist.cons₂ q ih

theorem mem_replaceFirstPool {r : PoolObj} {l : List PoolObj} {p p2 : PoolObj}
    (h : r ∈ replaceFirstPool l p p2) : r ∈ l ∨ r = p2 := by
  induction l with
  | nil => simp [replaceFirstPool] at h
  | cons q rest ih =>
    by_cases hq : q = p
    · simp only [replaceFirstPool, if_pos hq, List.mem_cons] at h
      rcases h with rfl | h
      · exact Or.inr rfl
      · exact Or.inl (List.mem_cons_of_mem _ h)
    · simp only [replaceFirstPool, if_neg hq, List.mem_cons] at h
      rcases h with rfl | h
      · exact Or.inl (List.mem_cons_self _ _)
      · rcases ih h with h1 | h1
        · exact Or.inl (List.mem_cons_of_mem _ h1)
        · exact Or.inr h1

theorem replaceFirstPool_not_mem (l : List PoolObj) (p p2 : PoolObj)
    (h : p ∉ l) : replaceFirstPool l p p2 = l := by
  induction l with
  | nil => simp [replaceFirstPool]
  | cons q rest ih =>
    have hq : q ≠ p := fun he => h (he ▸ List.mem_cons_self _ _)
    simp only [replaceFirstPool, if_neg hq]
    rw [ih (fun hm => h (List.mem_cons_of_mem _ hm))]

theorem pairwise_replaceFirstPool {R : PoolObj → PoolObj → Prop}
    (l : List PoolObj) (p p2 : PoolObj)
    (hfwd : ∀ q, R p q → R p2 q) (hbwd : ∀ q, R q p → R q p2)
    (hp : l.Pairwise R) : (replaceFirstPool l p p2).Pairwise R := by
  induction l with
  | nil => simp [replaceFirstPool]
  | cons q rest ih =>
    rcases List.pairwise_cons.mp hp with ⟨hq, hrest⟩
    by_cases h : q = p
    · subst h
      simp only [replaceFirstPool, if_pos rfl]
      exact List.pairwise_cons.mpr ⟨fun r hr => hfwd r (hq r hr), hrest⟩
    · simp only [replaceFirstPool, if_neg h]
      refine List.pairwise_cons.mpr ⟨?_, ih hrest⟩
      intro r hr
      rcases mem_replaceFirstPool hr with hmem | heq
      · exact hq r hmem
      · by_cases hpr : p ∈ rest
        · rw [heq]
          exact hbwd q (hq p hpr)
        · rw [replaceFirstPool_not_mem rest p p2 hpr] at hr
          exact hq r hr

theorem pairwise_append_pool {R : PoolObj → PoolObj → Prop}
    (l : List PoolObj) (p : PoolObj)
    (h : l.Pairwise R) (hall : ∀ q ∈ l, R q p) : (l ++ [p]).Pairwise R := by
  rw [List.pairwise_append]
  refine ⟨h, List.pairwise_singleton R p, ?_⟩
  intro a ha b hb
  rw [List.mem_singleton] at hb
  subst hb
  exact hall a ha

theorem not_duplicate_spec (pools : List PoolObj) (d : PoolDef)
    (h : virStoragePoolObjIsDuplicate pools d = false) :
    ∀ q ∈ pools, q.pdef.name ≠ d.name ∧ q.pdef.uuid ≠ d.uuid := by
  intro q hq
  unfold virStoragePoolObjIsDuplicate at h
  rw [List.any_eq_false] at h
  have h2 := h q hq
  simpa using h2

/-! ### Invariant preservation of the pool lifecycle operations -/

theorem storeInv_erase {s : DriverState} (p : PoolObj) (h : storeInv s) :
    storeInv ⟨erasePoolFirst s.pools p⟩ := by
  refine ⟨List.Pairwise.sublist (erasePoolFirst_sublist s.pools p) h.1, ?_⟩
  intro q hq
  exact h.2 q ((erasePoolFirst_sublist s.pools p).subset hq)

theorem storeInv_replace {s : DriverState} (p p2 : PoolObj)
    (hname : p2.pdef.name = p.pdef.name) (huuid : p2.pdef.uuid = p.pdef.uuid)
    (hnd : p2.newDef = none) (h : storeInv s) :
    storeInv ⟨replaceFirstPool s.pools p p2⟩ := by
  refine ⟨?_, ?_⟩
  · refine pairwise_replaceFirstPool s.pools p p2 ?_ ?_ h.1
    · intro q hq
      rw [hname, huuid]
      exact hq
    · intro q hq
      rw [hname, huuid]
      exact hq
  · intro q hq
    rcases mem_replaceFirstPool hq with hmem | rfl
    · exact h.2 q hmem
    · exact hnd

theorem storeInv_assign_branches {s : DriverState} (d : PoolDef) (h : storeInv s)
    (hdup : virStoragePoolObjIsDuplicate s.pools d = false) :
    storeInv ⟨(virStoragePoolObjAssignDef s.pools d).1⟩ := by
  have hfresh := not_duplicate_spec s.pools d hdup
  refine ⟨?_, ?_⟩
  · exact pairwise_append_pool s.pools _ h.1
      (fun q hq => ⟨(hfresh q hq).1, (hfresh q hq).2⟩)
  · intro q hq
    rw [virStoragePoolObjAssignDef, List.mem_append] at hq
    rcases hq with hq | hq
    · exact h.2 q hq
    · rw [List.mem_singleton] at hq
      subst hq
      rfl

theorem storeInv_defineXML (b : StorageBackend) (s : DriverState) (d : PoolDef)
    (saveOk : Bool) (h : storeInv s) :
    storeInv (storagePoolDefineXML b s d saveOk).2 := by
  unfold storagePoolDefineXML
  split
  next => exact h
  next hdup =>
    split
    next => exact h
    next =>
      split
      next => exact h
      next =>
        have hdup2 : virStoragePoolObjIsDuplicate s.pools d = false := by
          simpa using hdup
        have hA := storeInv_assign_branches d h hdup2
        dsimp only
        split
        next => exact storeInv_erase _ hA
        next => exact storeInv_replace _ _ rfl rfl rfl hA

theorem storeInv_createXML (b : StorageBackend) (s : DriverState) (d : PoolDef)
    (h : storeInv s) : storeInv (storagePoolCreateXML b s d).2 := by
  unfold storagePoolCreateXML
  split
  next => exact h
  next hdup =>
    split
    next => exact h
    next =>
      split
      next => exact h
      next =>
        have hdup2 : virStoragePoolObjIsDuplicate s.pools d = false := by
          simpa using hdup
        have hA := storeInv_assign_branches d h hdup2
        dsimp only
        split
        next => exact storeInv_erase _ hA
        next =>
          split
          next => exact storeInv_erase _ hA
          next => exact storeInv_replace _ _ rfl rfl rfl hA

theorem storeInv_destroy (b : StorageBackend) (s : DriverState) (u : String)
    (h : storeInv s) : storeInv (storagePoolDestroy b s u).2 := by
  unfold storagePoolDestroy
  split
  next => exact h
  next pool hfind =>
    have hmem : pool ∈ s.pools := by
      unfold findPoolByUuid at hfind
      exact List.mem_of_find?_eq_some hfind
    split
    next => exact h
    next =>
      split
      next => exact h
      next =>
        split
        next => exact h
        next =>
          split
          next => exact h
          next =>
            dsimp only
            split
            next => exact storeInv_erase _ h
            next =>
              split
              next nd hnd =>
                have h2 := h.2 pool hmem
                rw [h2] at hnd
                cases hnd
              next => exact storeInv_replace _ _ rfl rfl (h.2 pool hmem) h

theorem storeInv_undefine (s : DriverState) (u : String) (deleteDefOk : Bool)
    (h : storeInv s) : storeInv (storagePoolUndefine s u deleteDefOk).2 := by
  unfold storagePoolUndefine
  split
  next => exact h
  next pool hfind =>
    split
    next => exact h
    next =>
      split
      next => exact h
      next =>
        split
        next => exact h
        next => exact storeInv_erase _ h

theorem storeInv_refresh (b : StorageBackend) (s : DriverState) (u : String)
    (h : storeInv s) : storeInv (storagePoolRefresh b s u).2 := by
  unfold storagePoolRefresh
  split
  next => exact h
  next pool hfind =>
    have hmem : pool ∈ s.pools := by
      unfold findPoolByUuid at hfind
      exact List.mem_of_find?_eq_some hfind
    split
    next => exact h
    next =>
      split
      next => exact h
      next =>
        split
        next => exact h
        next =>
          dsimp only
          split
          next =>
            split
            next => exact storeInv_erase _ h
            next => exact storeInv_replace _ _ rfl rfl (h.2 pool hmem) h
          next => exact storeInv_replace _ _ rfl rfl (h.2 pool hmem) h

theorem storeInv_applyPoolOp (s : DriverState) (op : PoolOp) (h : storeInv s) :
    storeInv (applyPoolOp s op) := by
  cases op with
  | defineXML b d saveOk => exact storeInv_defineXML b s d saveOk h
  | createXML b d => exact storeInv_createXML b s d h
  | destroy b u => exact storeInv_destroy b s u h
  | undefine u delOk => exact storeInv_undefine s u delOk h
  | refresh b u => exact storeInv_refresh b s u h

theorem storeInv_runPoolOps (s : DriverState) (ops : List PoolOp)
    (h : storeInv s) : storeInv (runPoolOps s ops) := by
  induction ops generalizing s with
  | nil => exact h
  | cons op rest ih => exact ih _ (storeInv_applyPoolOp s op h)

theorem erasePoolFirst_name_ne (l : List PoolObj) (p : PoolObj)
    (hp : p ∈ l)
    (hpw : l.Pairwise (fun a b => a.pdef.name ≠ b.pdef.name ∧ a.pdef.uuid ≠ b.pdef.uuid)) :
    ∀ q ∈ erasePoolFirst l p, q.pdef.name ≠ p.pdef.name := by
  induction l with
  | nil => simp [erasePoolFirst]
  | cons x rest ih =>
    rcases List.pairwise_cons.mp hpw with ⟨hx, hrest⟩
    by_cases hxp : x = p
    · subst hxp
      simp only [erasePoolFirst, if_pos rfl]
      intro q hq
      exact Ne.symm (hx q hq).1
    · have hp2 : p ∈ rest := by
        rcases List.mem_cons.mp hp with he | he
        · exact absurd he.symm hxp
        · exact he
      simp only [erasePoolFirst, if_neg hxp]
      intro q hq
      rcases List.mem_cons.mp hq with rfl | hq2
      · exact (hx p hp2).1
      · exact ih hp2 hrest q hq2

theorem findByName_replaceFirstPool (l : List PoolObj) (p p2 : PoolObj)
    (hp : p ∈ l) (hname : p2.pdef.name = p.pdef.name)
    (hpw : l.Pairwise (fun a b => a.pdef.name ≠ b.pdef.name ∧ a.pdef.uuid ≠ b.pdef.uuid)) :
    (replaceFirstPool l p p2).find? (fun q => decide (q.pdef.name = p.pdef.name))
      = some p2 := by
  induction l with
  | nil => cases hp
  | cons x rest ih =>
    rcases List.pairwise_cons.mp hpw with ⟨hx, hrest⟩
    by_cases hxp : x = p
    · subst hxp
      simp only [replaceFirstPool, if_pos rfl]
      exact List.find?_cons_of_pos _ (by simp [hname])
    · have hp2 : p ∈ rest := by
        rcases List.mem_cons.mp hp with he | he
        · exact absurd he.symm hxp
        · exact he
      have hxn : x.pdef.name ≠ p.pdef.name := (hx p hp2).1
      simp only [replaceFirstPool, if_neg hxp]
      rw [List.find?_cons_of_neg _ (by simp [hxn])]
      exact ih hp2 hrest

theorem StorageSource.path_mk (p : String) (f : VirFmt) (b : Option StorageSource) :
    (StorageSource.mk p f b).path = p := rfl

theorem lookup_uniqueName_mem (w : World) (p : String) (fi : FileInfo)
    (h : w.lookup p = some fi) :
    fi.uniqueName ∈ w.files.map (fun f => f.2.uniqueName) := by
  unfold World.lookup at h
  cases hf : w.files.find? (fun f => decide (f.1 = p)) with
  | none => rw [hf] at h; cases h
  | some pr =>
    rw [hf] at h
    injection h with h2
    subst h2
    exact List.mem_map_of_mem _ (List.mem_of_find?_eq_some hf)

theorem unvisitedCount_lt (w : World) (cycle : List String) (u : String)
    (hmem : u ∈ w.files.map (fun f => f.2.uniqueName)) (hnot : u ∉ cycle) :
    unvisitedCount w (u :: cycle) < unvisitedCount w cycle := by
  unfold unvisitedCount
  apply Finset.card_lt_card
  rw [Finset.ssubset_def]
  constructor
  · intro i hi
    rw [Finset.mem_filter] at hi ⊢
    exact ⟨hi.1, fun hc => hi.2 (List.mem_cons_of_mem _ hc)⟩
  · intro hsub
    have hu : u ∈ (w.files.map (fun f => f.2.uniqueName)).toFinset.filter
        (fun i => i ∉ cycle) := by
      rw [Finset.mem_filter]
      exact ⟨List.mem_toFinset.mpr hmem, hnot⟩
    have hu2 := hsub hu
    rw [Finset.mem_filter] at hu2
    exact hu2.2 (List.mem_cons_self u cycle)

/-! ### Claim theorems -/

/-- C1: the claim says a successful `storageVolResize` adjusts the pool's
`allocation`/`available` by the delta in the volume's allocation.  The code
computes the pool delta as `abs_capacity - vol->target.capacity` only after
`vol->target.capacity` has already been overwritten with `abs_capacity`
(storage_driver.c:2081-2087), so the delta is always zero.  Evidence at the
failing input: resizing volume `v1` (capacity 100, allocation 10) of a pool
with allocation 500 and available 1000 to capacity 200 with the ALLOCATE
flag succeeds and raises the volume's allocation to 200 — a delta of +190 —
yet the pool's allocation stays 500 and its available stays 1000. -/
theorem c1_resize_pool_accounting_unchanged :
    (storageVolResize okBackend samplePool "v1" 200 ⟨true, false, false⟩).1 = .ok () ∧
    (storageVolResize okBackend samplePool "v1" 200 ⟨true, false, false⟩).2.pdef.allocation = 500 ∧
    (storageVolResize okBackend samplePool "v1" 200 ⟨true, false, false⟩).2.pdef.available = 1000 ∧
    (storageVolResize okBackend samplePool "v1" 200 ⟨true, false, false⟩).2.volumes =
      [{ sampleVol with target := { path := "/data/p1/v1", capacity := 200, allocation := 200 } },
       busyVol] :=
  ⟨rfl, rfl, rfl, rfl⟩

/-- C5: when the pool is active, the volume passes the `in_use`/`building`
guards, and the backend's `deleteVol` is present and succeeds,
`storageVolDelete` decreases the pool's allocation by exactly the volume's
recorded allocation, increases its available by the same amount, and
removes the volume from the pool's volume list
(storage_driver.c:1495-1516, 1602-1603). -/
theorem c5_delete_accounting (b : StorageBackend) (pool : PoolObj)
    (volName : String) (vol : VolDef)
    (hfind : virStorageVolDefFindByName pool volName = some vol)
    (hact : pool.active = true)
    (huse : vol.in_use = 0) (hbuild : vol.building = false)
    (hdp : b.deleteVolPresent = true) (hdo : b.deleteVolOk = true)
    (hle : vol.target.allocation ≤ pool.pdef.allocation)
    (hA : pool.pdef.allocation < u64Mod)
    (hV : pool.pdef.available + vol.target.allocation < u64Mod)
    (hnames : (pool.volumes.map VolDef.name).Nodup) :
    (storageVolDelete b pool volName).1 = .ok () ∧
    (storageVolDelete b pool volName).2.pdef.allocation
      = pool.pdef.allocation - vol.target.allocation ∧
    (storageVolDelete b pool volName).2.pdef.available
      = pool.pdef.available + vol.target.allocation ∧
    (storageVolDelete b pool volName).2.volumes = removeFirstVol pool.volumes vol ∧
    vol ∉ (storageVolDelete b pool volName).2.volumes := by
  simp only [storageVolDelete, storageVolDeleteInternal, hfind, hact, huse, hbuild,
    hdp, hdo, Bool.not_true, Bool.false_eq_true, if_false, ne_eq,
    not_true_eq_false, not_false_eq_true, if_true]
  exact ⟨trivial, u64sub_eq _ _ hle hA, u64add_eq _ _ hV, trivial,
    removeFirstVol_not_mem pool.volumes vol hnames⟩

/-- C5 witness: deleting idle volume `v1` from `samplePool` moves its
10 bytes of allocation from the pool's `allocation` to its `available` and
drops it from the volume list. -/
theorem c5_delete_accounting_witness :
    (storageVolDelete okBackend samplePool "v1").1 = .ok () ∧
    (storageVolDelete okBackend samplePool "v1").2.pdef.allocation
      = samplePool.pdef.allocation - sampleVol.target.allocation ∧
    (storageVolDelete okBackend samplePool "v1").2.pdef.available
      = samplePool.pdef.available + sampleVol.target.allocation ∧
    (storageVolDelete okBackend samplePool "v1").2.volumes
      = removeFirstVol samplePool.volumes sampleVol ∧
    sampleVol ∉ (storageVolDelete okBackend samplePool "v1").2.volumes :=
  c5_delete_accounting okBackend samplePool "v1" sampleVol rfl rfl rfl rfl rfl rfl
    (by decide) (by decide) (by decide) (by decide)

/-- C6: a volume with `in_use > 0` cannot be deleted, resized, wiped, or
uploaded-to: each of the four operations fails with the InvalidState
(operation invalid) error before touching any state, so the volume, the
pool's volume list, and the pool's accounting are all unchanged
(storage_driver.c:1588-1593, 2029-2034, 2124-2129, 1979-1984); success of
any of them therefore requires `in_use = 0`. -/
theorem c6_in_use_guard (b : StorageBackend) (pool : PoolObj)
    (volName : String) (vol : VolDef) (capacity : Nat) (fl : ResizeFlags)
    (hfind : virStorageVolDefFindByName pool volName = some vol)
    (hact : pool.active = true)
    (huse : vol.in_use ≠ 0) :
    storageVolDelete b pool volName = (.error .operationInvalid, pool) ∧
    storageVolResize b pool volName capacity fl = (.error .operationInvalid, pool) ∧
    storageVolWipe b pool volName = (.error .operationInvalid, pool) ∧
    storageVolUpload b pool volName = (.error .operationInvalid, pool) := by
  refine ⟨?_, ?_, ?_, ?_⟩ <;>
    simp [storageVolDelete, storageVolResize, storageVolWipe, storageVolWipePattern,
      storageVolUpload, VIR_STORAGE_VOL_WIPE_ALG_LAST, hfind, hact, huse]

/-- C2 counterexample: the claim says a failed `buildVol` always leaves the
just-created volume absent from the pool's volume list afterwards.  The
rollback path of `storageVolCreateXML` deletes the record through
`storageVolDeleteInternal`, whose result is ignored
(storage_driver.c:1706-1712): with a backend whose `buildVol` fails and
whose `deleteVol` slot is absent, the call reports failure yet `freshVol`
is still in the pool's volume list (the accounting, however, is
untouched). -/
theorem c2_counterexample :
    (storageVolCreateXML { buildVolOk := false, deleteVolPresent := false }
        samplePool freshVol).2.volumes = [sampleVol, busyVol, freshVol] ∧
    (storageVolCreateXML { buildVolOk := false, deleteVolPresent := false }
        samplePool freshVol).1 = .error .backendFail ∧
    (storageVolCreateXML { buildVolOk := false, deleteVolPresent := false }
        samplePool freshVol).2.pdef.allocation = 500 ∧
    (storageVolCreateXML { buildVolOk := false, deleteVolPresent := false }
        samplePool freshVol).2.pdef.available = 1000 :=
  ⟨rfl, rfl, rfl, rfl⟩

/-- C2 (amended): if `buildVol` reports failure, `storageVolCreateXML`
reports failure and the pool's definition — in particular its `allocation`
and `available` — is exactly its pre-call value (the failed volume never
contributes to accounting, storage_driver.c:1706-1718); and provided the
backend's `deleteVol` slot is present and its rollback call succeeds, the
just-created volume is absent afterwards: the entire pool object equals its
pre-call state. -/
theorem c2_build_failure_rollback (b : StorageBackend) (pool : PoolObj)
    (voldef : VolDef)
    (hact : pool.active = true)
    (hfresh : virStorageVolDefFindByName pool voldef.name = none)
    (hcp : b.createVolPresent = true) (hco : b.createVolOk = true)
    (hbp : b.buildVolPresent = true) (hbo : b.buildVolOk = false)
    (hnb : voldef.building = false) :
    (storageVolCreateXML b pool voldef).1 = .error .backendFail ∧
    (storageVolCreateXML b pool voldef).2.pdef = pool.pdef ∧
    (b.deleteVolPresent = true → b.deleteVolOk = true →
      (storageVolCreateXML b pool voldef).2 = pool) := by
  have hne : ∀ v ∈ pool.volumes, v.name ≠ voldef.name :=
    find_name_none_ne pool voldef.name hfresh
  have hneF : ∀ v ∈ pool.volumes, v ≠ voldef :=
    fun v hv he => hne v hv (by rw [he])
  have hneT : ∀ v ∈ pool.volumes, v ≠ { voldef with building := true } :=
    fun v hv he => hne v hv (by rw [he])
  have hetaF : ({ voldef with building := false } : VolDef) = voldef := by
    cases voldef
    simp_all
  simp only [storageVolCreateXML, storageVolDeleteInternal, hact, hfresh, hcp, hco,
    hbp, hbo, Option.isSome_none, Bool.not_true, Bool.false_eq_true, if_false,
    not_false_eq_true, if_true, Bool.not_false, Bool.true_eq_false]
  rw [replaceFirstVol_append pool.volumes voldef { voldef with building := true } hneF,
    replaceFirstVol_append pool.volumes { voldef with building := true }
      { voldef with building := false } hneT, hetaF]
  refine ⟨rfl, ?_, ?_⟩
  · by_cases hdp : b.deleteVolPresent = true
    · by_cases hdo : b.deleteVolOk = true
      · simp [hdp, hdo]
      · simp [hdp, hdo]
    · simp [hdp]
  · intro hdp hdo
    simp only [hdp, hdo, Bool.not_true, Bool.false_eq_true, if_false]
    rw [removeFirstVol_append pool.volumes voldef hneF]
    cases pool
    simp_all

/-- C2 witness: with a backend whose `buildVol` fails and whose `deleteVol`
rollback succeeds, creating `freshVol` in `samplePool` fails and restores
the pool exactly. -/
theorem c2_build_failure_rollback_witness :
    (storageVolCreateXML { buildVolOk := false } samplePool freshVol).1
      = .error .backendFail ∧
    (storageVolCreateXML { buildVolOk := false } samplePool freshVol).2.pdef
      = samplePool.pdef ∧
    (({ buildVolOk := false } : StorageBackend).deleteVolPresent = true →
      ({ buildVolOk := false } : StorageBackend).deleteVolOk = true →
      (storageVolCreateXML { buildVolOk := false } samplePool freshVol).2 = samplePool) :=
  c2_build_failure_rollback { buildVolOk := false } samplePool freshVol
    rfl rfl rfl rfl rfl rfl rfl

/-- C10: when `storageVolCreateXMLFrom` succeeds, the created volume's
capacity is the requested capacity silently raised to the source volume's
capacity when smaller, and its allocation is the requested allocation
silently raised to the source volume's capacity when smaller
(storage_driver.c:1813-1820): the caller's smaller requested values are
never used. -/
theorem c10_clone_capacity_clamp (b : StorageBackend) (pool : PoolObj)
    (origVolName : String) (origvol : VolDef) (newvol : VolDef)
    (hact : pool.active = true)
    (horig : virStorageVolDefFindByName pool origVolName = some origvol)
    (hfresh : virStorageVolDefFindByName pool newvol.name = none)
    (hbfp : b.buildVolFromPresent = true)
    (hob : origvol.building = false)
    (hrv : b.refreshVolPresent = true → b.refreshVolOk = true)
    (hco : b.createVolOk = true)
    (hbo : b.buildVolFromOk = true) :
    ∃ v, (storageVolCreateXMLFrom b pool origVolName newvol).1 = .ok v ∧
      v.target.capacity =
        (if newvol.target.capacity < origvol.target.capacity
         then origvol.target.capacity else newvol.target.capacity) ∧
      v.target.allocation =
        (if newvol.target.allocation < origvol.target.capacity
         then origvol.target.capacity else newvol.target.allocation) := by
  have hrcond : ¬(b.refreshVolPresent = true ∧ ¬(b.refreshVolOk = true)) :=
    fun h => h.2 (hrv h.1)
  simp only [storageVolCreateXMLFrom, hact, horig, hfresh, hbfp, hob, hco, hbo,
    Option.isSome_none, Bool.not_true, Bool.false_eq_true, if_false,
    not_false_eq_true, if_true, if_neg hrcond, Bool.not_false, Bool.true_eq_false]
  refine ⟨_, rfl, ?_, ?_⟩ <;>
    by_cases h1 : newvol.target.capacity < origvol.target.capacity <;>
    by_cases h2 : newvol.target.allocation < origvol.target.capacity <;>
    simp [h1, h2]

/-- C10 witness: cloning `sampleVol` (capacity 100) while requesting
capacity 40 and allocation 5 yields a volume with capacity 100 and
allocation 100. -/
theorem c10_clone_capacity_clamp_witness :
    ∃ v, (storageVolCreateXMLFrom okBackend samplePool "v1" freshClone).1 = .ok v ∧
      v.target.capacity =
        (if freshClone.target.capacity < sampleVol.target.capacity
         then sampleVol.target.capacity else freshClone.target.capacity) ∧
      v.target.allocation =
        (if freshClone.target.allocation < sampleVol.target.capacity
         then sampleVol.target.capacity else freshClone.target.allocation) :=
  c10_clone_capacity_clamp okBackend samplePool "v1" sampleVol freshClone
    rfl rfl rfl rfl rfl (fun _ => rfl) rfl rfl

/-- C7: for every sequence of define/create/destroy/undefine (and refresh)
pool lifecycle operations starting from a store satisfying the invariant —
in particular the empty store — the pool object store never contains two
live pools with the same name or the same UUID: `storagePoolCreateXML` and
`storagePoolDefineXML` run the duplicate checks
(storage_driver.c:614-618, 674-678) before `virStoragePoolObjAssignDef`
inserts anything, and removal and in-place update preserve identity
distinctness.  Since every prefix of a sequence is itself a sequence, the
conclusion holds at every intermediate state as well. -/
theorem c7_unique_pool_identities (s : DriverState) (ops : List PoolOp)
    (h : storeInv s) : poolIdsDistinct (runPoolOps s ops) :=
  (storeInv_runPoolOps s ops h).1

/-- C7 witness: a define→create→destroy→undefine sequence on two distinct
definitions, run from the empty store, leaves the store duplicate-free. -/
theorem c7_unique_pool_identities_witness :
    poolIdsDistinct (runPoolOps ⟨[]⟩
      [.defineXML okBackend samplePoolDef true,
       .createXML okBackend otherPoolDef,
       .destroy okBackend "uuid-2",
       .undefine "uuid-1" true]) :=
  c7_unique_pool_identities ⟨[]⟩
    [.defineXML okBackend samplePoolDef true,
     .createXML okBackend otherPoolDef,
     .destroy okBackend "uuid-2",
     .undefine "uuid-1" true]
    ⟨List.Pairwise.nil, by simp⟩

/-- C9: when an active pool with no async jobs is refreshed and the
backend's `refreshPool` fails, `storagePoolRefresh` reports failure and the
pool's `active` flag becomes false (storage_driver.c:992-1004); a transient
pool (no config file) is removed from the store entirely, so a subsequent
lookup by its name reports NotFound, while a persistent pool remains in the
store inactive (with its volume list cleared). -/
theorem c9_refresh_failure (b : StorageBackend) (s : DriverState) (u : String)
    (pool : PoolObj)
    (hfind : findPoolByUuid s u = some pool)
    (hbp : b.backendPresent = true)
    (hact : pool.active = true)
    (hjobs : pool.asyncjobs = 0)
    (hrf : b.refreshPoolOk = false)
    (hpw : poolIdsDistinct s) :
    (storagePoolRefresh b s u).1 = .error .backendFail ∧
    (pool.configFile = none →
      storagePoolLookupByName (storagePoolRefresh b s u).2 pool.pdef.name
        = .error .noStoragePool) ∧
    (∀ cf, pool.configFile = some cf →
      storagePoolLookupByName (storagePoolRefresh b s u).2 pool.pdef.name
        = .ok { pool with volumes := [], active := false }) := by
  have hmem : pool ∈ s.pools := by
    unfold findPoolByUuid at hfind
    exact List.mem_of_find?_eq_some hfind
  refine ⟨?_, ?_, ?_⟩
  · simp only [storagePoolRefresh, hfind, hbp, hact, hjobs, hrf, Bool.not_true,
      Bool.false_eq_true, if_false, ne_eq, not_true_eq_false, not_false_eq_true,
      if_true, Bool.not_false]
    split <;> rfl
  · intro hcf
    simp only [storagePoolRefresh, hfind, hbp, hact, hjobs, hrf, hcf, Bool.not_true,
      Bool.false_eq_true, if_false, ne_eq, not_true_eq_false, not_false_eq_true,
      if_true, Bool.not_false]
    unfold storagePoolLookupByName findPoolByName
    have hnone : (erasePoolFirst s.pools pool).find?
        (fun q => decide (q.pdef.name = pool.pdef.name)) = none := by
      rw [List.find?_eq_none]
      intro q hq
      simpa using erasePoolFirst_name_ne s.pools pool hmem hpw q hq
    rw [hnone]
  · intro cf hcf
    simp only [storagePoolRefresh, hfind, hbp, hact, hjobs, hrf, hcf, Bool.not_true,
      Bool.false_eq_true, if_false, ne_eq, not_true_eq_false, not_false_eq_true,
      if_true, Bool.not_false]
    have hne : ¬(some cf = (none : Option String)) := by simp
    rw [if_neg hne]
    unfold storagePoolLookupByName findPoolByName
    dsimp only
    rw [findByName_replaceFirstPool s.pools pool
      { pdef := pool.pdef, active := false, asyncjobs := 0,
        configFile := some cf, newDef := pool.newDef, volumes := [] } hmem rfl hpw]

/-- C9 witness: refreshing transient `samplePool` with a failing
`refreshPool` backend reports failure, and the pool's name subsequently
resolves to NotFound. -/
theorem c9_refresh_failure_witness :
    (storagePoolRefresh { refreshPoolOk := false } ⟨[samplePool]⟩ "uuid-1").1
      = .error .backendFail ∧
    (samplePool.configFile = none →
      storagePoolLookupByName
          (storagePoolRefresh { refreshPoolOk := false } ⟨[samplePool]⟩ "uuid-1").2
          samplePool.pdef.name
        = .error .noStoragePool) ∧
    (∀ cf, samplePool.configFile = some cf →
      storagePoolLookupByName
          (storagePoolRefresh { refreshPoolOk := false } ⟨[samplePool]⟩ "uuid-1").2
          samplePool.pdef.name
        = .ok { samplePool with volumes := [], active := false }) :=
  c9_refresh_failure { refreshPoolOk := false } ⟨[samplePool]⟩ "uuid-1" samplePool
    rfl rfl rfl rfl rfl (by simp [poolIdsDistinct])

/-- C3 counterexample: the claim says the overall traversal
(`virStorageFileGetMetadata`) fails with the self-referential error on a
cyclic chain.  On the self-referential image `A` (whose backing reference
is `A` itself), the revisit is detected one recursion level down, but
`virStorageFileGetMetadataRecurse` absorbs every failure of its recursive
call as a broken chain (storage_driver.c:2744-2751), so the overall call
reports success with the chain truncated (no backing store). -/
theorem c3_counterexample :
    virStorageFileGetMetadata cycleWorld srcA false = .ok (.mk "A" .qcow2 none) :=
  rfl

/-- C3 (amended): when a source's backing reference resolves to a canonical
identity already present in the traversal's visited set, the recursive call
on that source fails with the InternalInconsistency (self-referential)
error rather than looping — the recursion is bounded by the count of
not-yet-visited world identities, so the run never exhausts its fuel — but
the caller absorbs that failure: the chain is accepted truncated just
before the revisited source and the enclosing call reports success
(storage_driver.c:2710-2715, 2744-2751). -/
theorem c3_cycle_detection :
    (∀ (w : World) (probe : Bool) (fuel : Nat) (src : StorageSource)
       (cycle : List String) (fi : FileInfo),
       w.lookup src.path = some fi →
       fi.supportsTraversal = true → fi.initOk = true → fi.accessOk = true →
       fi.uniqueName ∈ cycle →
       virStorageFileGetMetadataRecurse w probe (fuel + 1) src cycle
         = .err .internalError) ∧
    (∀ (w : World) (probe : Bool) (fuel : Nat) (src : StorageSource)
       (cycle : List String) (fi : FileInfo) (rawPath : String),
       w.lookup src.path = some fi →
       fi.supportsTraversal = true → fi.initOk = true → fi.accessOk = true →
       fi.uniqueName ∉ cycle →
       fi.readHeaderOk = true → fi.metadataOk = true →
       fi.backingStoreRaw = some rawPath →
       (∃ e, virStorageFileGetMetadataRecurse w probe fuel
          (.mk rawPath (resolveBackingFormat fi.backingFormat probe) none)
          (fi.uniqueName :: cycle) = .err e) →
       virStorageFileGetMetadataRecurse w probe (fuel + 1) src cycle = .ok src) ∧
    (∀ (w : World) (probe : Bool) (fuel : Nat) (src : StorageSource)
       (cycle : List String),
       unvisitedCount w cycle < fuel →
       virStorageFileGetMetadataRecurse w probe fuel src cycle ≠ .hung) := by
  refine ⟨?_, ?_, ?_⟩
  · intro w probe fuel src cycle fi hlk hsup hini hacc hmem
    simp [virStorageFileGetMetadataRecurse, hlk, hsup, hini, hacc, hmem]
  · intro w probe fuel src cycle fi rawPath hlk hsup hini hacc hnm hread hmeta hraw hfail
    rcases hfail with ⟨e, he⟩
    simp [virStorageFileGetMetadataRecurse, hlk, hsup, hini, hacc, hnm, hread,
      hmeta, hraw, he]
  · intro w probe fuel
    induction fuel with
    | zero =>
      intro src cycle h
      omega
    | succ n ih =>
      intro src cycle h
      simp only [virStorageFileGetMetadataRecurse]
      split
      next => simp
      next fi hlk =>
        split
        next => simp
        next hsup =>
          split
          next => simp
          next hini =>
            split
            next => simp
            next hacc =>
              split
              next => simp
              next hnm =>
                split
                next => simp
                next hread =>
                  split
                  next => simp
                  next hmeta =>
                    split
                    next => simp
                    next rawPath hraw =>
                      split
                      next hrec =>
                        exfalso
                        have hm := lookup_uniqueName_mem w src.path fi hlk
                        have hlt := unvisitedCount_lt w cycle fi.uniqueName hm
                          (by simpa using hnm)
                        exact ih _ _ (by omega) hrec
                      next => simp
                      next => simp

/-- C3 witness: on the self-referential world, the inner frame (visited set
already holding `idA`) fails with the InternalInconsistency error, the
outer call succeeds truncated, and the default-fuel run does not hang. -/
theorem c3_cycle_detection_witness :
    virStorageFileGetMetadataRecurse cycleWorld false 1 srcA ["idA"]
      = .err .internalError ∧
    virStorageFileGetMetadataRecurse cycleWorld false 2 srcA [] = .ok srcA ∧
    virStorageFileGetMetadataRecurse cycleWorld false 2 srcA [] ≠ .hung :=
  ⟨c3_cycle_detection.1 cycleWorld false 0 srcA ["idA"] cycleFi rfl rfl rfl rfl
     (by decide),
   c3_cycle_detection.2.1 cycleWorld false 1 srcA [] cycleFi "A" rfl rfl rfl rfl
     (by decide) rfl rfl rfl ⟨.internalError, rfl⟩,
   c3_cycle_detection.2.2 cycleWorld false 2 srcA [] (by decide)⟩

/-- C4 counterexample: the claim says a 3-link chain `A → B → C` with `B`
inaccessible resolves to a 2-link chain (`A` with `backingStore = B`).  In
the code, when the recursive call on `B` fails at its access check, the
enclosing frame returns success WITHOUT assigning `src->backingStore`
(storage_driver.c:2744-2753), so the result is the 1-link chain `A` with no
backing store at all. -/
theorem c4_counterexample :
    virStorageFileGetMetadata truncWorld truncSrcA false
      = .ok (.mk "A" .raw none) :=
  rfl

/-- C4 (amended): for a 3-link backing chain `A → B → C` where `B`'s
storage-file backend reports an access (existence-check) failure,
`virStorageFileGetMetadata` on `A` reports success and yields a 1-link
chain: `A` alone, with its `backingStore` left absent (the partially built
`B` source is discarded). -/
theorem c4_truncated_chain (w : World) (probe : Bool) (src : StorageSource)
    (fia fib : FileInfo) (pathB pathC : String)
    (hfmt : src.format.leNone = false)
    (hlkA : w.lookup src.path = some fia)
    (hAsup : fia.supportsTraversal = true) (hAini : fia.initOk = true)
    (hAacc : fia.accessOk = true)
    (hAread : fia.readHeaderOk = true) (hAmeta : fia.metadataOk = true)
    (hAraw : fia.backingStoreRaw = some pathB)
    (hlkB : w.lookup pathB = some fib)
    (hBsup : fib.supportsTraversal = true) (hBini : fib.initOk = true)
    (hBacc : fib.accessOk = false)
    (hBraw : fib.backingStoreRaw = some pathC) :
    virStorageFileGetMetadata w src probe = .ok src := by
  have hne : w.files ≠ [] := by
    intro hnil
    unfold World.lookup at hlkA
    rw [hnil] at hlkA
    simp [List.find?] at hlkA
  obtain ⟨k, hk⟩ : ∃ k, w.files.length = k + 1 := by
    cases hl : w.files.length with
    | zero => exact absurd (List.length_eq_zero.mp hl) hne
    | succ m => exact ⟨m, rfl⟩
  simp only [virStorageFileGetMetadata, metadataFuel, hk, hfmt,
    Bool.false_eq_true, if_false]
  simp [virStorageFileGetMetadataRecurse, StorageSource.path_mk, hlkA, hAsup, hAini,
    hAacc, hAread, hAmeta, hAraw, hlkB, hBsup, hBini, hBacc]

/-- C4 witness: on the concrete world `A → B → C` with `B` inaccessible,
the traversal succeeds with the chain being just `A`. -/
theorem c4_truncated_chain_witness :
    virStorageFileGetMetadata truncWorld truncSrcA false = .ok truncSrcA :=
  c4_truncated_chain truncWorld false truncSrcA truncFiA truncFiB "B" "C"
    rfl rfl rfl rfl rfl rfl rfl rfl rfl rfl rfl rfl rfl

/-- C8: the effective format of the next source constructed by the
backing-chain resolver is determined exactly by the policy of
storage_driver.c:2737-2742, embedded as `resolveBackingFormat` and applied
to the hinted backing format when `virStorageFileGetMetadataRecurse` builds
the next chain element: an `auto` hint with probing disallowed is forced to
raw; an `auto-safe` hint becomes `auto`; any other hint is used literally —
and the source placed into the resulting chain carries exactly that
format. -/
theorem c8_backing_format_policy :
    (∀ (hint : VirFmt) (probe : Bool), hint = .auto → probe = false →
       resolveBackingFormat hint probe = .raw) ∧
    (∀ (hint : VirFmt) (probe : Bool), hint = .autoSafe →
       resolveBackingFormat hint probe = .auto) ∧
    (∀ (hint : VirFmt) (probe : Bool),
       ¬(hint = .auto ∧ probe = false) → hint ≠ .autoSafe →
       resolveBackingFormat hint probe = hint) ∧
    (∀ (w : World) (probe : Bool) (fuel : Nat) (src : StorageSource)
       (cycle : List String) (fi fib : FileInfo) (rawPath : String),
       w.lookup src.path = some fi →
       fi.supportsTraversal = true → fi.initOk = true → fi.accessOk = true →
       fi.uniqueName ∉ cycle →
       fi.readHeaderOk = true → fi.metadataOk = true →
       fi.backingStoreRaw = some rawPath →
       w.lookup rawPath = some fib →
       fib.supportsTraversal = true → fib.initOk = true → fib.accessOk = true →
       fib.uniqueName ∉ fi.uniqueName :: cycle →
       fib.readHeaderOk = true → fib.metadataOk = true →
       fib.backingStoreRaw = none →
       virStorageFileGetMetadataRecurse w probe (fuel + 2) src cycle
         = .ok (src.withBacking
             (.mk rawPath (resolveBackingFormat fi.backingFormat probe) none))) := by
  refine ⟨?_, ?_, ?_, ?_⟩
  · intro hint probe h1 h2
    subst h1
    subst h2
    simp [resolveBackingFormat]
  · intro hint probe h1
    subst h1
    simp [resolveBackingFormat]
  · intro hint probe h1 h2
    unfold resolveBackingFormat
    rw [if_neg (fun hc => h1 ⟨hc.1, by simpa using hc.2⟩), if_neg h2]
  · intro w probe fuel src cycle fi fib rawPath hlkA hAsup hAini hAacc hAnm hAread
      hAmeta hAraw hlkB hBsup hBini hBacc hBnm hBread hBmeta hBraw
    simp [virStorageFileGetMetadataRecurse, StorageSource.path_mk, hlkA, hAsup, hAini,
      hAacc, hAnm, hAread, hAmeta, hAraw, hlkB, hBsup, hBini, hBacc, hBnm, hBread,
      hBmeta, hBraw]

/-- C8 witness: the three policy cases at concrete formats, and the
`auto`-hinted, probing-disallowed backing of the concrete world resolving
to a chain whose second element carries the raw-forced format. -/
theorem c8_backing_format_policy_witness :
    resolveBackingFormat .auto false = .raw ∧
    resolveBackingFormat .autoSafe true = .auto ∧
    resolveBackingFormat .qcow2 true = .qcow2 ∧
    virStorageFileGetMetadataRecurse fmtWorld false 2
        (.mk "A" .qcow2 none) []
      = .ok ((StorageSource.mk "A" .qcow2 none).withBacking
          (.mk "B" (resolveBackingFormat fmtFiA.backingFormat false) none)) :=
  ⟨c8_backing_format_policy.1 .auto false rfl rfl,
   c8_backing_format_policy.2.1 .autoSafe true rfl,
   c8_backing_format_policy.2.2.1 .qcow2 true (by simp) (by simp),
   c8_backing_format_policy.2.2.2 fmtWorld false 0 (.mk "A" .qcow2 none) []
     fmtFiA fmtFiB "B" rfl rfl rfl rfl (by decide) rfl rfl rfl rfl rfl rfl rfl
     (by decide) rfl rfl rfl⟩

/-- C6 witness: on `busyVol` (`in_use = 1`) all four operations report the
InvalidState error and leave `samplePool` unchanged. -/
theorem c6_in_use_guard_witness :
    storageVolDelete okBackend samplePool "v2" = (.error .operationInvalid, samplePool) ∧
    storageVolResize okBackend samplePool "v2" 400 ⟨false, false, false⟩
      = (.error .operationInvalid, samplePool) ∧
    storageVolWipe okBackend samplePool "v2" = (.error .operationInvalid, samplePool) ∧
    storageVolUpload okBackend samplePool "v2" = (.error .operationInvalid, samplePool) :=
  c6_in_use_guard okBackend samplePool "v2" busyVol 400 ⟨false, false, false⟩
    rfl rfl (by decide)

end StorageDriver
